import Mathlib

set_option maxHeartbeats 1000000
set_option maxRecDepth 8192

/-!
Verification of the natural-language task parser
(`src/utils/natural-language-parser.ts`).

The parser recognizes dates, times and tags inside free text with a fixed
collection of JavaScript regular expressions and resolves them against the
current wall clock.  The embedding below models:

* the relevant fragment of JavaScript regex matching (literal characters,
  character classes, greedy `*`/`+`/`?`/`{m,n}` via ordered alternation,
  alternation, word boundaries `\b`, capture groups) by a backtracking
  matcher that enumerates candidate matches in the JavaScript backtracking
  priority order — the head of the list is the match JavaScript produces;
* JavaScript `Date` values as a pair of a civil day count (days since
  1970-01-01, local clock, no DST modelled) and minutes since midnight;
  `new Date(y, m, d)` month/day overflow, `setMonth`, `setDate`,
  `setHours`-rollover and `setHours(0,0,0,0)` normalization are modelled
  through exact civil-from-days / days-from-civil conversions;
* each parser function (`parseDate`, `parseTime`, `extractTags`,
  `cleanInput`, `parseTaskInput`, `getDateSuggestions`) as a direct
  transcription of the source, the implicit `new Date()` reads replaced by
  an explicit `now : DateTime` parameter.
-/

namespace NLParse

/-! ### JavaScript character classes (ASCII fragment)

`\w` in JavaScript is `[A-Za-z0-9_]`; `\s` includes the ASCII whitespace
characters (the Unicode space characters never occur in the inputs under
study).  `\d` is `[0-9]`. -/

def isWordChar (c : Char) : Bool := c.isAlphanum || c = '_'

def isJsSpace (c : Char) : Bool :=
  c = ' ' || c = '\t' || c = '\n' || c = '\r' || c = '\x0b' || c = '\x0c'

/-! ### A small backtracking regex engine

`Re` is the fragment of regex syntax used by the patterns of the parser.  `mat`
returns every way the expression can match a prefix of the input, in
the JavaScript backtracking priority order (greedy quantifiers try longer
matches first, alternations try the left branch first); the head of the
list is the match JavaScript commits to.  `prev` is the character just
before the current position (needed for `\b`).  The `star` case is fuelled;
an iteration of a starred body must consume at least one character, which
matches the JavaScript empty-iteration rule and bounds the recursion. -/

inductive Re where
  | eps : Re
  | charP (p : Char → Bool) : Re
  | seq (a b : Re) : Re
  | alt (a b : Re) : Re
  | star (a : Re) : Re
  | wb : Re
  | group (i : Nat) (a : Re) : Re

structure MRes where
  consumed : List Char
  rest : List Char
  caps : List (Nat × List Char)
deriving DecidableEq, Repr

/-- The character preceding the position reached after consuming `consumed`
starting from a position whose preceding character was `prev`. -/
def lastCtx (prev : Option Char) (consumed : List Char) : Option Char :=
  match consumed.getLast? with
  | some c => some c
  | none => prev

def isWordOpt (c : Option Char) : Bool :=
  match c with
  | some c => isWordChar c
  | none => false

/-- The matcher recursion is fuelled (structural recursion on `fuel`) so
that the kernel can evaluate it; every recursive call burns one unit, and
the fuel bounds the call depth (not the step count).  The static nesting
of a pattern burns at most its size, and every star iteration must
consume a character (the body of every starred subpattern here is a
single character class), so `sizeR re + 4 * length + 8` units never run
out on the patterns of this development; the concrete evaluations below
double as checks of that bound. -/
def mat : Nat → Re → Option Char → List Char → List MRes
  | 0, _, _, _ => []
  | fuel + 1, re, prev, cs =>
    match re with
    | .eps => [⟨[], cs, []⟩]
    | .charP p =>
        match cs with
        | [] => []
        | c :: rest => if p c then [⟨[c], rest, []⟩] else []
    | .seq a b =>
        (mat fuel a prev cs).flatMap fun r1 =>
          (mat fuel b (lastCtx prev r1.consumed) r1.rest).map fun r2 =>
            ⟨r1.consumed ++ r2.consumed, r2.rest, r1.caps ++ r2.caps⟩
    | .alt a b => mat fuel a prev cs ++ mat fuel b prev cs
    | .star a =>
        (((mat fuel a prev cs).filter fun r => !r.consumed.isEmpty).flatMap fun r1 =>
          (mat fuel (.star a) (lastCtx prev r1.consumed) r1.rest).map fun r2 =>
            ⟨r1.consumed ++ r2.consumed, r2.rest, r1.caps ++ r2.caps⟩)
        ++ [⟨[], cs, []⟩]
    | .wb =>
        if isWordOpt prev ≠ isWordOpt cs.head? then [⟨[], cs, []⟩] else []
    | .group i a =>
        (mat fuel a prev cs).map fun r => ⟨r.consumed, r.rest, r.caps ++ [(i, r.consumed)]⟩

def sizeR : Re → Nat
  | .eps => 1
  | .charP _ => 1
  | .seq a b => sizeR a + sizeR b + 1
  | .alt a b => sizeR a + sizeR b + 1
  | .star a => sizeR a + 1
  | .wb => 1
  | .group _ a => sizeR a + 1

def fuelFor (re : Re) (cs : List Char) : Nat :=
  sizeR re + 4 * cs.length + 8

/-- All matches of `re` starting exactly at the current position, highest
backtracking priority first. -/
def matHere (re : Re) (prev : Option Char) (cs : List Char) : List MRes :=
  mat (fuelFor re cs) re prev cs

/-- Leftmost search: try to match at each position from left to right,
returning the text before the match together with the match JavaScript
produces (the highest-priority one at the leftmost matching position). -/
def searchFrom (re : Re) : Option Char → List Char → List Char → Option (List Char × MRes)
  | prev, acc, [] =>
    match (matHere re prev []).head? with
    | some r => some (acc.reverse, r)
    | none => none
  | prev, acc, c :: rest =>
    match (matHere re prev (c :: rest)).head? with
    | some r => some (acc.reverse, r)
    | none => searchFrom re (some c) (c :: acc) rest

/-- First match of `re` in `s` (JavaScript `String.prototype.match` without
the `g` flag / `RegExp.prototype.test`). -/
def reFirst (re : Re) (s : List Char) : Option (List Char × MRes) :=
  searchFrom re none [] s

def reTest (re : Re) (s : List Char) : Bool := (reFirst re s).isSome

/-- Value of capture group `i` of the first match, when both exist
(JavaScript `match[i]`, `undefined` modelled as `none`). -/
def reCap (re : Re) (i : Nat) (s : List Char) : Option (List Char) :=
  match reFirst re s with
  | some (_, r) => r.caps.lookup i
  | none => none

/-- `String.prototype.replace` with a non-global regex and the empty
replacement string: remove the first match, keep everything else. -/
def replaceFirst (re : Re) (s : List Char) : List Char :=
  match reFirst re s with
  | some (before, r) => before ++ r.rest
  | none => s

/-- All matches of a global regex, scanning left to right and resuming
after each match (our global patterns never match the empty string). -/
def allMatchesFrom (fuel : Nat) (re : Re) (prev : Option Char) (s : List Char) :
    List MRes :=
  match fuel with
  | 0 => []
  | fuel + 1 =>
    match searchFrom re prev [] s with
    | none => []
    | some (before, r) =>
        r :: allMatchesFrom fuel re (lastCtx (lastCtx prev before) r.consumed) r.rest

def allMatches (re : Re) (s : List Char) : List MRes :=
  allMatchesFrom (s.length + 1) re none s

/-- `String.prototype.replace` with a global regex and the empty
replacement string: remove every match. -/
def replaceAllFrom (fuel : Nat) (re : Re) (prev : Option Char) (s : List Char) :
    List Char :=
  match fuel with
  | 0 => s
  | fuel + 1 =>
    match searchFrom re prev [] s with
    | none => s
    | some (before, r) =>
        before ++ replaceAllFrom fuel re (lastCtx (lastCtx prev before) r.consumed) r.rest

def replaceAll (re : Re) (s : List Char) : List Char :=
  replaceAllFrom (s.length + 1) re none s

/-! ### Pattern constructors -/

/-- Single literal character. -/
def rchar (c : Char) : Re := .charP (· = c)

/-- Single literal character under the `i` flag (inputs are compared
lowercased; the literals written below are lowercase). -/
def rcharCI (c : Char) : Re := .charP (fun x => x.toLower = c)

def rlit (s : String) : Re := s.data.foldr (fun c r => .seq (rchar c) r) .eps

def rlitCI (s : String) : Re := s.data.foldr (fun c r => .seq (rcharCI c) r) .eps

/-- Ordered alternation over a list (first alternative has priority). -/
def ralts (rs : List Re) : Re :=
  match rs with
  | [] => .charP fun _ => false
  | r :: rest => rest.foldl .alt r

def rwords (ws : List String) : Re := ralts (ws.map rlit)

def rwordsCI (ws : List String) : Re := ralts (ws.map rlitCI)

def ropt (a : Re) : Re := .alt a .eps

def rplus (a : Re) : Re := .seq a (.star a)

def rdigit : Re := .charP Char.isDigit

def rspace : Re := .charP isJsSpace

/-- `\b<word>\b`. -/
def wordRe (w : String) : Re := .seq .wb (.seq (rlit w) .wb)

/-! ### JavaScript `Date` model

A `DateTime` is an instant on the local clock: `days` is the civil day
count since 1970-01-01 and `mins` the minutes since local midnight
(sub-minute precision is irrelevant to the parser and not modelled; DST is
not modelled, matching the local-clock scope of the spec).  `civilFromDays` /
`daysFromCivil` are the standard exact conversions between day counts and
proleptic-Gregorian `(year, month 1..12, day)` triples; `daysFromCivil` is
linear in `day`, which reproduces the JavaScript out-of-range day overflow
(`new Date(2025, 0, 40)` is Feb 9, 2025). -/

structure DateTime where
  days : Int
  mins : Int
deriving DecidableEq, Repr

/-- JavaScript `Date.prototype.getDay`: 0 = Sunday .. 6 = Saturday
(1970-01-01, day 0, was a Thursday). -/
def jsDay (days : Int) : Int := (days + 4) % 7

def daysFromCivil (y m d : Int) : Int :=
  let y2 := if m ≤ 2 then y - 1 else y
  let era := Int.fdiv y2 400
  let yoe := y2 - era * 400
  let mp := (m + 9) % 12
  let doy := (153 * mp + 2) / 5 + d - 1
  let doe := yoe * 365 + yoe / 4 - yoe / 100 + doy
  era * 146097 + doe - 719468

def civilFromDays (z0 : Int) : Int × Int × Int :=
  let z := z0 + 719468
  let era := Int.fdiv z 146097
  let doe := z - era * 146097
  let yoe := (doe - doe / 1460 + doe / 36524 - doe / 146096) / 365
  let y := yoe + era * 400
  let doy := doe - (365 * yoe + yoe / 4 - yoe / 100)
  let mp := (5 * doy + 2) / 153
  let d := doy - (153 * mp + 2) / 5 + 1
  let m := if mp < 10 then mp + 3 else mp - 9
  (if m ≤ 2 then y + 1 else y, m, d)

/-- `new Date(year, monthIndex, day)` (month index 0-based, with
the JavaScript month and day overflow normalization), as a civil day count. -/
def jsMakeDate (y mIdx d : Int) : Int :=
  daysFromCivil (y + Int.fdiv mIdx 12) (mIdx % 12 + 1) d

/-! ### Small string helpers -/

def strLower (s : String) : List Char := s.data.map Char.toLower

def parseNat (cs : List Char) : Nat :=
  cs.foldl (fun n c => n * 10 + (c.toNat - 48)) 0

/-- `String.prototype.trim` (ASCII whitespace). -/
def trimL (cs : List Char) : List Char :=
  ((cs.dropWhile isJsSpace).reverse.dropWhile isJsSpace).reverse

/-- `split(/[,;]/)`. -/
def splitSeps : List Char → List (List Char)
  | [] => [[]]
  | c :: rest =>
      match splitSeps rest with
      | [] => [[]]
      | g :: gs => if c = ',' || c = ';' then [] :: g :: gs else (c :: g) :: gs

/-- `replace(/\s+/g, ' ')`: collapse every whitespace run to one space. -/
def collapseWs : List Char → List Char
  | [] => []
  | [c] => [if isJsSpace c then ' ' else c]
  | c :: d :: rest =>
      if isJsSpace c then
        if isJsSpace d then collapseWs (d :: rest)
        else ' ' :: collapseWs (d :: rest)
      else c :: collapseWs (d :: rest)

def startsW : List Char → List Char → Bool
  | [], _ => true
  | _ :: _, [] => false
  | p :: ps, c :: cs => p = c && startsW ps cs

/-- `String(n).padStart(2, '0')`. -/
def padStart2 (s : String) : String :=
  if s.length ≥ 2 then s else if s.length = 1 then "0" ++ s else "00"

/-! ### The word tables of the parser (`DAYS_OF_WEEK`, `MONTHS`) and the
alternation lists exactly as they appear in the source regexes. -/

def weekdayFull : List String :=
  ["monday", "tuesday", "wednesday", "thursday", "friday", "saturday", "sunday"]

def weekdayAbbr : List String :=
  ["mon", "tue", "wed", "thu", "fri", "sat", "sun"]

def weekdayAll : List String := weekdayFull ++ weekdayAbbr

def monthAlts : List String :=
  ["january", "february", "march", "april", "may", "june", "july", "august",
   "september", "october", "november", "december",
   "jan", "feb", "mar", "apr", "may", "jun", "jul", "aug", "sep", "oct", "nov", "dec"]

def unitAlts : List String :=
  ["day", "days", "week", "weeks", "month", "months", "hour", "hours", "minute", "minutes"]

def daysOfWeekTable : List (String × Int) :=
  [("monday", 1), ("tuesday", 2), ("wednesday", 3), ("thursday", 4), ("friday", 5),
   ("saturday", 6), ("sunday", 0),
   ("mon", 1), ("tue", 2), ("wed", 3), ("thu", 4), ("fri", 5), ("sat", 6), ("sun", 0)]

def monthsTable : List (String × Int) :=
  [("january", 0), ("february", 1), ("march", 2), ("april", 3), ("may", 4),
   ("june", 5), ("july", 6), ("august", 7), ("september", 8), ("october", 9),
   ("november", 10), ("december", 11),
   ("jan", 0), ("feb", 1), ("mar", 2), ("apr", 3), ("jun", 5), ("jul", 6),
   ("aug", 7), ("sep", 8), ("oct", 9), ("nov", 10), ("dec", 11)]

/-! ### Regexes used by `parseDate` / `parseTime`

These functions lowercase their input first, so the `i` flag is modelled
by plain lowercase literals. -/

/-- `\d{1,2}` (greedy: two digits preferred). -/
def digits12 : Re := .alt (.seq rdigit rdigit) rdigit

/-- `\d{2,4}` (greedy: longer preferred). -/
def digits24 : Re :=
  .alt (.seq rdigit (.seq rdigit (.seq rdigit rdigit)))
    (.alt (.seq rdigit (.seq rdigit rdigit)) (.seq rdigit rdigit))

/-- `0?[0-9]|1[0-9]|2[0-3]` in alternation/greediness order. -/
def hourAlt : Re :=
  ralts [.seq (ropt (rchar '0')) rdigit,
         .seq (rchar '1') rdigit,
         .seq (rchar '2') (.charP fun c => c = '0' || c = '1' || c = '2' || c = '3')]

/-- `[0-5][0-9]`. -/
def minutePat : Re :=
  .seq (.charP fun c => c = '0' || c = '1' || c = '2' || c = '3' || c = '4' || c = '5') rdigit

/-- `[\/\-.]`. -/
def rsep : Re := .charP fun c => c = '/' || c = '-' || c = '.'

def reToday : Re := wordRe "today"

def reTomorrow : Re := wordRe "tomorrow"

/-- `\bnext\s+(monday|...|sunday|mon|...|sun)\b`. -/
def reNextDay : Re :=
  .seq .wb (.seq (rlit "next") (.seq (rplus rspace) (.seq (.group 1 (rwords weekdayAll)) .wb)))

/-- `\b(monday|...|sunday|mon|...|sun)\b`. -/
def reBareDay : Re := .seq .wb (.seq (.group 1 (rwords weekdayAll)) .wb)

/-- `\b(january|...|dec)\s+(\d{1,2})\b`. -/
def reMonthDay : Re :=
  .seq .wb (.seq (.group 1 (rwords monthAlts))
    (.seq (rplus rspace) (.seq (.group 2 digits12) .wb)))

/-- `\bin\s+(\d+)\s+(day|days|...|minutes)\b`. -/
def reRelative : Re :=
  .seq .wb (.seq (rlit "in") (.seq (rplus rspace) (.seq (.group 1 (rplus rdigit))
    (.seq (rplus rspace) (.seq (.group 2 (rwords unitAlts)) .wb)))))

/-- `\b(\d{1,2})[\/\-.](\d{1,2})[\/\-.](\d{2,4})\b`. -/
def reNumeric : Re :=
  .seq .wb (.seq (.group 1 digits12) (.seq rsep (.seq (.group 2 digits12)
    (.seq rsep (.seq (.group 3 digits24) .wb)))))

/-- `\b(0?[0-9]|1[0-9]|2[0-3]):([0-5][0-9])\s*(am|pm)?\b` (`i` flag;
input lowercased). -/
def reStdTime : Re :=
  .seq .wb (.seq (.group 1 hourAlt) (.seq (rchar ':') (.seq (.group 2 minutePat)
    (.seq (.star rspace) (.seq (ropt (.group 3 (ralts [rlit "am", rlit "pm"]))) .wb)))))

/-! ### `parseDate`

Direct transcription of the sequence of early-returning checks in the source.
`now` stands for the `new Date()` reads.  Every branch ends by
`setHours(0, 0, 0, 0)`, i.e. produces `mins = 0`. -/

def resolveNextDay (dayName : List Char) (now : DateTime) : DateTime :=
  let targetDay := (daysOfWeekTable.lookup (String.mk dayName)).getD 0
  let currentDay := jsDay now.days
  let daysUntil := (targetDay - currentDay + 7) % 7
  let daysUntil := if daysUntil = 0 then 7 else daysUntil
  ⟨now.days + daysUntil, 0⟩

def resolveBareDay (dayName : List Char) (now : DateTime) : DateTime :=
  let targetDay := (daysOfWeekTable.lookup (String.mk dayName)).getD 0
  let currentDay := jsDay now.days
  let daysUntil := (targetDay - currentDay + 7) % 7
  let daysUntil := if daysUntil < 0 then daysUntil + 7 else daysUntil
  ⟨now.days + daysUntil, 0⟩

def resolveMonthDay (r : MRes) (now : DateTime) : DateTime :=
  let monthName := (r.caps.lookup 1).getD []
  let day : Int := parseNat ((r.caps.lookup 2).getD [])
  let month := (monthsTable.lookup (String.mk monthName)).getD 0
  let year := (civilFromDays now.days).1
  let d0 := jsMakeDate year month day
  -- `if (date < new Date()) date.setFullYear(year + 1)`: the comparison is
  -- between instants; `setFullYear(year + 1)` keeps the stored (already
  -- normalized) month and day, sets the year field to `year + 1` — the
  -- current year plus one, not the year of the constructed date, which
  -- differs when a day-0 input underflowed into the previous year — and
  -- renormalizes in the new year.
  let d1 :=
    if d0 * 1440 < now.days * 1440 + now.mins then
      let c := civilFromDays d0
      daysFromCivil (year + 1) c.2.1 c.2.2
    else d0
  ⟨d1, 0⟩

def resolveRelative (r : MRes) (now : DateTime) : DateTime :=
  let amount : Int := parseNat ((r.caps.lookup 1).getD [])
  let unit := (r.caps.lookup 2).getD []
  if startsW "day".data unit then
    ⟨now.days + amount, 0⟩
  else if startsW "week".data unit then
    ⟨now.days + amount * 7, 0⟩
  else if startsW "month".data unit then
    let c := civilFromDays now.days
    ⟨jsMakeDate c.1 (c.2.1 - 1 + amount) c.2.2, 0⟩
  else if startsW "hour".data unit then
    -- setHours(getHours() + amount) keeps the minutes and rolls the day,
    -- then setHours(0,0,0,0) discards the time of day.
    ⟨now.days + ((now.mins / 60 + amount) * 60 + now.mins % 60) / 1440, 0⟩
  else if startsW "minute".data unit then
    ⟨now.days + (now.mins + amount) / 1440, 0⟩
  else
    -- no unit branch taken: the date stays at `now`, then is normalized
    -- to midnight (unreachable: the alternation only yields the 5 stems).
    ⟨now.days, 0⟩

def resolveNumeric (r : MRes) : DateTime :=
  let month : Int := (parseNat ((r.caps.lookup 1).getD []) : Int) - 1
  let day : Int := parseNat ((r.caps.lookup 2).getD [])
  let yearN := parseNat ((r.caps.lookup 3).getD [])
  let year : Int :=
    if yearN < 100 then (if yearN < 50 then yearN + 2000 else yearN + 1900) else yearN
  ⟨jsMakeDate year month day, 0⟩

def parseDate (input : String) (now : DateTime) : Option DateTime :=
  let lowerInput := strLower input
  if reTest reToday lowerInput then
    some ⟨now.days, 0⟩
  else if reTest reTomorrow lowerInput then
    some ⟨now.days + 1, 0⟩
  else match reCap reNextDay 1 lowerInput with
  | some dayName => some (resolveNextDay dayName now)
  | none =>
  match reCap reBareDay 1 lowerInput with
  | some dayName => some (resolveBareDay dayName now)
  | none =>
  match reFirst reMonthDay lowerInput with
  | some (_, r) => some (resolveMonthDay r now)
  | none =>
  match reFirst reRelative lowerInput with
  | some (_, r) => some (resolveRelative r now)
  | none =>
  match reFirst reNumeric lowerInput with
  | some (_, r) => some (resolveNumeric r)
  | none => none

/-! ### `parseTime` -/

def parseTime (input : String) : Option String :=
  let lowerInput := strLower input
  match reFirst reStdTime lowerInput with
  | some (_, r) =>
      let hours0 := parseNat ((r.caps.lookup 1).getD [])
      let minutes := String.mk ((r.caps.lookup 2).getD [])
      let hours :=
        match r.caps.lookup 3 with
        | some p =>
            let h1 := if String.mk p = "pm" ∧ hours0 ≠ 12 then hours0 + 12 else hours0
            if String.mk p = "am" ∧ h1 = 12 then 0 else h1
        | none => hours0
      some (padStart2 (toString hours) ++ ":" ++ minutes)
  | none =>
  if reTest (wordRe "morning") lowerInput then some "09:00"
  else if reTest (wordRe "afternoon") lowerInput then some "14:00"
  else if reTest (wordRe "evening") lowerInput then some "18:00"
  else if reTest (wordRe "night") lowerInput then some "21:00"
  else if reTest (wordRe "tonight") lowerInput then some "20:00"
  else none

/-! ### `extractTags`

Runs on the original (not lowercased) input; the hashtag pattern is
case-sensitive with an explicit two-case class, the `tag:` pattern carries
the `i` flag.  JavaScript `Set` iteration order is insertion order. -/

def hashChar : Re := .charP fun c => c.isAlphanum || c = '_' || c = '-'

def tagChar : Re := .charP fun c => c.isAlphanum || c = '_' || isJsSpace c || c = ','

/-- `/#([a-zA-Z0-9_-]+)/g`. -/
def reHashtag : Re := .seq (rchar '#') (.group 1 (rplus hashChar))

/-- `/tag:\s*([a-zA-Z0-9_\s,]+)/gi`. -/
def reTagList : Re := .seq (rlitCI "tag:") (.seq (.star rspace) (.group 1 (rplus tagChar)))

def addTag (acc : List String) (t : String) : List String :=
  if t = "" then acc else if t ∈ acc then acc else acc ++ [t]

def extractTags (input : String) : List String :=
  let cs := input.data
  let hashtagTags :=
    (allMatches reHashtag cs).map fun r =>
      String.mk ((r.consumed.drop 1).map Char.toLower)
  let tagListTags :=
    (allMatches reTagList cs).flatMap fun r =>
      let tagPart := trimL (replaceFirst (rlitCI "tag:") r.consumed)
      (splitSeps tagPart).map fun t => String.mk ((trimL t).map Char.toLower)
  (hashtagTags ++ tagListTags).foldl addTag []

/-! ### `cleanInput`

Runs on the original input: the `DATE_PATTERNS` / `TIME_PATTERNS` arrays
(which differ from the regexes `parseDate` uses internally) are applied
one after the other, each with a non-global `replace` that removes only
its first match; the hashtag and `tag:` patterns are global.  Patterns
carrying the `i` flag use the case-insensitive constructors; the first
time pattern has no `i` flag and spells out `am|pm|AM|PM`. -/

def cuToday : Re := .seq .wb (.seq (rlitCI "today") .wb)

def cuTomorrow : Re := .seq .wb (.seq (rlitCI "tomorrow") .wb)

def cuTonight : Re := .seq .wb (.seq (rlitCI "tonight") .wb)

/-- `\b(next\s+(monday|...|sunday))\b` — full weekday names only. -/
def cuNextFull : Re :=
  .seq .wb (.seq (rlitCI "next") (.seq (rplus rspace) (.seq (rwordsCI weekdayFull) .wb)))

/-- `\b(mon|tue|wed|thu|fri|sat|sun)\b`. -/
def cuAbbrDay : Re := .seq .wb (.seq (rwordsCI weekdayAbbr) .wb)

/-- `\b(monday|...|sunday)\b`. -/
def cuFullDay : Re := .seq .wb (.seq (rwordsCI weekdayFull) .wb)

/-- `\b(\d{1,2})[\/\-.](\d{1,2})[\/\-.](\d{2,4})\b`. -/
def cuNumeric : Re :=
  .seq .wb (.seq digits12 (.seq rsep (.seq digits12 (.seq rsep (.seq digits24 .wb)))))

/-- `\b(january|...|dec)\s+(\d{1,2})\b`. -/
def cuMonthDay : Re :=
  .seq .wb (.seq (rwordsCI monthAlts) (.seq (rplus rspace) (.seq digits12 .wb)))

/-- `\b(in\s+)?(\d+)\s+(day|...|minutes)\b`. -/
def cuRelative : Re :=
  .seq .wb (.seq (ropt (.seq (rlitCI "in") (rplus rspace)))
    (.seq (rplus rdigit) (.seq (rplus rspace) (.seq (rwordsCI unitAlts) .wb))))

/-- `\b(0?[0-9]|1[0-9]|2[0-3]):([0-5][0-9])\s*(am|pm|AM|PM)?\b` (no `i`). -/
def cuStdTime : Re :=
  .seq .wb (.seq hourAlt (.seq (rchar ':') (.seq minutePat
    (.seq (.star rspace) (.seq (ropt (rwords ["am", "pm", "AM", "PM"])) .wb)))))

/-- `\b(morning|afternoon|evening|night|tonight)\b` (`i`). -/
def cuPeriodWord : Re :=
  .seq .wb (.seq (rwordsCI ["morning", "afternoon", "evening", "night", "tonight"]) .wb)

/-- `\b(at\s+)?(\d{1,2})(?::(\d{2}))?\s*(am|pm|AM|PM)\b` (`i`). -/
def cuAtTime : Re :=
  .seq .wb (.seq (ropt (.seq (rlitCI "at") (rplus rspace)))
    (.seq digits12 (.seq (ropt (.seq (rchar ':') (.seq rdigit rdigit)))
      (.seq (.star rspace) (.seq (ralts [rlitCI "am", rlitCI "pm"]) .wb)))))

def cleanDatePats : List Re :=
  [cuToday, cuTomorrow, cuTonight, cuNextFull, cuAbbrDay, cuFullDay,
   cuNumeric, cuMonthDay, cuRelative]

def cleanTimePats : List Re := [cuStdTime, cuPeriodWord, cuAtTime]

/-- Everything `cleanInput` does before the placeholder fallback. -/
def stripRecognized (input : String) : List Char :=
  let cleaned := input.data
  let cleaned := replaceAll (.seq (rchar '#') (rplus hashChar)) cleaned
  let cleaned := replaceAll (.seq (rlitCI "tag:") (.seq (.star rspace) (rplus tagChar))) cleaned
  let cleaned := cleanDatePats.foldl (fun acc re => replaceFirst re acc) cleaned
  let cleaned := cleanTimePats.foldl (fun acc re => replaceFirst re acc) cleaned
  trimL (collapseWs (trimL cleaned))

def cleanInput (input : String) (tags : List String) : String :=
  let cleaned := String.mk (stripRecognized input)
  if cleaned = "" then "New Task" else cleaned

/-! ### `parseTaskInput` -/

structure ParsedTask where
  title : String
  date : Option DateTime
  time : Option String
  tags : List String
  rawInput : String
deriving DecidableEq, Repr

def parseTaskInput (input : String) (now : DateTime) : ParsedTask :=
  let tags := extractTags input
  let date := parseDate input now
  let time := parseTime input
  let title := cleanInput input tags
  ⟨title, date, time, tags, input⟩

/-! ### `getDateSuggestions` -/

structure DateSuggestion where
  text : String
  date : DateTime
  icon : String
deriving DecidableEq, Repr

/-- One optional character per letter: `^t?o?d?a?y?$`-style patterns. -/
def reOptWord (w : String) : Re :=
  w.data.foldr (fun c r => .seq (ropt (rcharCI c)) r) .eps

/-- Anchored (`^...$`) test: some way of matching consumes the whole input. -/
def anchoredTest (re : Re) (s : List Char) : Bool :=
  (matHere re none s).any fun r => r.rest.isEmpty

def suggTodayRe : Re := reOptWord "today"

def suggTomorrowRe : Re := reOptWord "tomorrow"

/-- `^n?e?x?t?\.?\s?w?e?e?k?$`. -/
def suggNextWeekRe : Re :=
  .seq (ropt (rcharCI 'n')) (.seq (ropt (rcharCI 'e')) (.seq (ropt (rcharCI 'x'))
    (.seq (ropt (rcharCI 't')) (.seq (ropt (rchar '.')) (.seq (ropt rspace)
      (.seq (ropt (rcharCI 'w')) (.seq (ropt (rcharCI 'e'))
        (.seq (ropt (rcharCI 'e')) (ropt (rcharCI 'k'))))))))))

def sameInstant (a b : DateTime) : Bool :=
  a.days * 1440 + a.mins = b.days * 1440 + b.mins

def getDateSuggestions (input : String) (now : DateTime) : List DateSuggestion :=
  let trimmed := trimL input.data
  let s1 : List DateSuggestion :=
    if anchoredTest suggTodayRe trimmed then [⟨"Today", ⟨now.days, 0⟩, "📅"⟩] else []
  let s2 := s1 ++
    (if anchoredTest suggTomorrowRe trimmed then [⟨"Tomorrow", ⟨now.days + 1, 0⟩, "📅"⟩] else [])
  let s3 := s2 ++
    (if anchoredTest suggNextWeekRe trimmed then [⟨"Next Week", ⟨now.days + 7, 0⟩, "📅"⟩] else [])
  if input.length > 0 then
    let today : DateTime := ⟨now.days, 0⟩
    let tomorrow : DateTime := ⟨now.days + 1, 0⟩
    let s4 := if s3.any (fun s => sameInstant s.date today) then s3
              else s3 ++ [⟨"Today", today, "📅"⟩]
    let s5 := if s4.any (fun s => sameInstant s.date tomorrow) then s4
              else s4 ++ [⟨"Tomorrow", tomorrow, "📅"⟩]
    s5
  else s3

/-! ### The seven date rules as (matcher, resolver) pairs

`parseDate` is a sequence of early-returning checks; the pairs below name
each check and its resolution separately, in the priority order of the
source: today, tomorrow, next-weekday, bare weekday, month-name day,
in-N-units, numeric M/D/Y. -/

def dateRuleMatches : Nat → String → Bool
  | 0, input => reTest reToday (strLower input)
  | 1, input => reTest reTomorrow (strLower input)
  | 2, input => (reCap reNextDay 1 (strLower input)).isSome
  | 3, input => (reCap reBareDay 1 (strLower input)).isSome
  | 4, input => (reFirst reMonthDay (strLower input)).isSome
  | 5, input => (reFirst reRelative (strLower input)).isSome
  | 6, input => (reFirst reNumeric (strLower input)).isSome
  | _, _ => false

def dateRuleResolve : Nat → String → DateTime → Option DateTime
  | 0, _, now => some ⟨now.days, 0⟩
  | 1, _, now => some ⟨now.days + 1, 0⟩
  | 2, input, now => (reCap reNextDay 1 (strLower input)).map fun w => resolveNextDay w now
  | 3, input, now => (reCap reBareDay 1 (strLower input)).map fun w => resolveBareDay w now
  | 4, input, now => (reFirst reMonthDay (strLower input)).map fun p => resolveMonthDay p.2 now
  | 5, input, now => (reFirst reRelative (strLower input)).map fun p => resolveRelative p.2 now
  | 6, input, now => (reFirst reNumeric (strLower input)).map fun p => resolveNumeric p.2
  | _, _, _ => none

/-- The fixed-priority period-word resolution, written from the amended
claim wording: the five period words are tried in the fixed order
morning, afternoon, evening, night, tonight, each by a position-blind
containment test, and the first one present decides the time.  To be
compared with the period-word branch of `parseTime`. -/
def periodWordResolve (input : String) : Option String :=
  if reTest (wordRe "morning") (strLower input) then some "09:00"
  else if reTest (wordRe "afternoon") (strLower input) then some "14:00"
  else if reTest (wordRe "evening") (strLower input) then some "18:00"
  else if reTest (wordRe "night") (strLower input) then some "21:00"
  else if reTest (wordRe "tonight") (strLower input) then some "20:00"
  else none

/-! ### Evaluation lemmas: one per branch of the `parseDate` chain -/

theorem parseDate_today_eval (input : String) (now : DateTime)
    (h : reTest reToday (strLower input) = true) :
    parseDate input now = some ⟨now.days, 0⟩ := by
  simp [parseDate, h]

theorem parseDate_tomorrow_eval (input : String) (now : DateTime)
    (h0 : reTest reToday (strLower input) = false)
    (h : reTest reTomorrow (strLower input) = true) :
    parseDate input now = some ⟨now.days + 1, 0⟩ := by
  simp [parseDate, h0, h]

theorem parseDate_nextDay_eval (input : String) (now : DateTime) (dn : List Char)
    (h0 : reTest reToday (strLower input) = false)
    (h1 : reTest reTomorrow (strLower input) = false)
    (h : reCap reNextDay 1 (strLower input) = some dn) :
    parseDate input now = some (resolveNextDay dn now) := by
  simp [parseDate, h0, h1, h]

theorem parseDate_bareDay_eval (input : String) (now : DateTime) (dn : List Char)
    (h0 : reTest reToday (strLower input) = false)
    (h1 : reTest reTomorrow (strLower input) = false)
    (h2 : reCap reNextDay 1 (strLower input) = none)
    (h : reCap reBareDay 1 (strLower input) = some dn) :
    parseDate input now = some (resolveBareDay dn now) := by
  simp [parseDate, h0, h1, h2, h]

theorem parseDate_monthDay_eval (input : String) (now : DateTime) (b : List Char) (r : MRes)
    (h0 : reTest reToday (strLower input) = false)
    (h1 : reTest reTomorrow (strLower input) = false)
    (h2 : reCap reNextDay 1 (strLower input) = none)
    (h3 : reCap reBareDay 1 (strLower input) = none)
    (h : reFirst reMonthDay (strLower input) = some (b, r)) :
    parseDate input now = some (resolveMonthDay r now) := by
  simp [parseDate, h0, h1, h2, h3, h]

theorem parseDate_relative_eval (input : String) (now : DateTime) (b : List Char) (r : MRes)
    (h0 : reTest reToday (strLower input) = false)
    (h1 : reTest reTomorrow (strLower input) = false)
    (h2 : reCap reNextDay 1 (strLower input) = none)
    (h3 : reCap reBareDay 1 (strLower input) = none)
    (h4 : reFirst reMonthDay (strLower input) = none)
    (h : reFirst reRelative (strLower input) = some (b, r)) :
    parseDate input now = some (resolveRelative r now) := by
  simp [parseDate, h0, h1, h2, h3, h4, h]

theorem parseDate_numeric_eval (input : String) (now : DateTime) (b : List Char) (r : MRes)
    (h0 : reTest reToday (strLower input) = false)
    (h1 : reTest reTomorrow (strLower input) = false)
    (h2 : reCap reNextDay 1 (strLower input) = none)
    (h3 : reCap reBareDay 1 (strLower input) = none)
    (h4 : reFirst reMonthDay (strLower input) = none)
    (h5 : reFirst reRelative (strLower input) = none)
    (h : reFirst reNumeric (strLower input) = some (b, r)) :
    parseDate input now = some (resolveNumeric r) := by
  simp [parseDate, h0, h1, h2, h3, h4, h5, h]

/-! ### Resolver facts -/

theorem resolveNextDay_mins (dn : List Char) (now : DateTime) :
    (resolveNextDay dn now).mins = 0 := rfl

theorem resolveBareDay_mins (dn : List Char) (now : DateTime) :
    (resolveBareDay dn now).mins = 0 := rfl

theorem resolveMonthDay_mins (r : MRes) (now : DateTime) :
    (resolveMonthDay r now).mins = 0 := rfl

theorem resolveRelative_mins (r : MRes) (now : DateTime) :
    (resolveRelative r now).mins = 0 := by
  simp only [resolveRelative]
  split_ifs <;> rfl

theorem resolveNumeric_mins (r : MRes) : (resolveNumeric r).mins = 0 := rfl

/-- When the target weekday equals the current weekday, the bare-weekday
resolution is a zero-day offset. -/
theorem resolveBareDay_self (dn : List Char) (now : DateTime)
    (h : jsDay now.days = (daysOfWeekTable.lookup (String.mk dn)).getD 0) :
    resolveBareDay dn now = ⟨now.days, 0⟩ := by
  simp only [resolveBareDay, ← h]
  have h7 : (jsDay now.days - jsDay now.days + 7) % 7 = 0 := by omega
  rw [h7]
  norm_num

/-- When the target weekday equals the current weekday, the next-weekday
resolution is a seven-day offset. -/
theorem resolveNextDay_self (dn : List Char) (now : DateTime)
    (h : jsDay now.days = (daysOfWeekTable.lookup (String.mk dn)).getD 0) :
    resolveNextDay dn now = ⟨now.days + 7, 0⟩ := by
  simp only [resolveNextDay, ← h]
  have h7 : (jsDay now.days - jsDay now.days + 7) % 7 = 0 := by omega
  rw [h7]
  norm_num

theorem isSome_false {α : Type} {o : Option α} (h : o.isSome = false) : o = none := by
  cases o <;> simp_all

/-! ### Projections of `parseTaskInput` -/

theorem parseTaskInput_title (input : String) (now : DateTime) :
    (parseTaskInput input now).title = cleanInput input (extractTags input) := by
  simp only [parseTaskInput]

theorem parseTaskInput_date (input : String) (now : DateTime) :
    (parseTaskInput input now).date = parseDate input now := by
  simp only [parseTaskInput]

theorem parseTaskInput_time (input : String) (now : DateTime) :
    (parseTaskInput input now).time = parseTime input := by
  simp only [parseTaskInput]

theorem parseTaskInput_tags (input : String) (now : DateTime) :
    (parseTaskInput input now).tags = extractTags input := by
  simp only [parseTaskInput]

/-! ### Claim theorems -/

/-- C6: whenever `parseDate` returns a date at all — under any of the seven
date rules, including in-N-hours and in-N-minutes — that date is normalized
to local midnight (`mins = 0`); hour and minute offsets can only change the
calendar day through rollover, never the stored time value. -/
theorem parseDate_always_midnight (input : String) (now : DateTime) (d : DateTime)
    (h : parseDate input now = some d) : d.mins = 0 := by
  simp only [parseDate] at h
  repeat' split at h
  all_goals try exact Option.noConfusion h
  all_goals injection h with h2
  all_goals subst h2
  all_goals
    simp [resolveNextDay_mins, resolveBareDay_mins, resolveMonthDay_mins,
      resolveRelative_mins, resolveNumeric_mins]

/-- Witness for C6 at a concrete input: "in 5 hours" at 21:40 of day 20000
rolls over to day 20001 and is stored as midnight. -/
theorem parseDate_always_midnight_witness :
    parseDate "in 5 hours" ⟨20000, 1300⟩ = some ⟨20001, 0⟩ ∧
    (⟨20001, 0⟩ : DateTime).mins = 0 :=
  ⟨by decide, parseDate_always_midnight "in 5 hours" ⟨20000, 1300⟩ ⟨20001, 0⟩ (by decide)⟩

/-- C7: for every input string the returned title is non-empty, and when
stripping all recognized fragments and collapsing whitespace leaves
nothing, the title is exactly the placeholder "New Task". -/
theorem parse_title_nonempty (input : String) (now : DateTime) :
    (parseTaskInput input now).title ≠ "" ∧
    (stripRecognized input = [] → (parseTaskInput input now).title = "New Task") := by
  rw [parseTaskInput_title]
  simp only [cleanInput]
  constructor
  · split_ifs with hc
    · decide
    · exact hc
  · intro h
    have hc : String.mk (stripRecognized input) = "" := by rw [h]
    simp [hc]

/-- Witness for C7: the input "#a" consists of one recognized fragment
only, so its title is the placeholder. -/
theorem parse_title_nonempty_witness :
    (parseTaskInput "#a" ⟨0, 0⟩).title ≠ "" ∧
    (parseTaskInput "#a" ⟨0, 0⟩).title = "New Task" :=
  ⟨(parse_title_nonempty "#a" ⟨0, 0⟩).1,
   (parse_title_nonempty "#a" ⟨0, 0⟩).2 (by decide)⟩

/-- C3: date extraction is first-match-wins over the fixed priority order
today (0) > tomorrow (1) > next-weekday (2) > bare weekday (3) >
month-name day (4) > in-N-units (5) > numeric M/D/Y (6): whenever rule `i`
matches and no earlier rule does, `parseDate` returns the resolution of rule `i`, the later rules never being consulted. -/
theorem parseDate_firstMatchWins (input : String) (now : DateTime) (i : Nat) (hi : i < 7)
    (hm : dateRuleMatches i input = true)
    (hearlier : ∀ j, j < i → dateRuleMatches j input = false) :
    parseDate input now = dateRuleResolve i input now := by
  interval_cases i
  · simp only [dateRuleMatches] at hm
    simp only [dateRuleResolve]
    exact parseDate_today_eval input now hm
  · have h0 := hearlier 0 (by omega)
    simp only [dateRuleMatches] at hm h0
    simp only [dateRuleResolve]
    exact parseDate_tomorrow_eval input now h0 hm
  · have h0 := hearlier 0 (by omega)
    have h1 := hearlier 1 (by omega)
    simp only [dateRuleMatches] at hm h0 h1
    obtain ⟨w, hw⟩ := Option.isSome_iff_exists.mp hm
    simp only [dateRuleResolve, hw, Option.map_some']
    exact parseDate_nextDay_eval input now w h0 h1 hw
  · have h0 := hearlier 0 (by omega)
    have h1 := hearlier 1 (by omega)
    have h2 := hearlier 2 (by omega)
    simp only [dateRuleMatches] at hm h0 h1 h2
    obtain ⟨w, hw⟩ := Option.isSome_iff_exists.mp hm
    simp only [dateRuleResolve, hw, Option.map_some']
    exact parseDate_bareDay_eval input now w h0 h1 (isSome_false h2) hw
  · have h0 := hearlier 0 (by omega)
    have h1 := hearlier 1 (by omega)
    have h2 := hearlier 2 (by omega)
    have h3 := hearlier 3 (by omega)
    simp only [dateRuleMatches] at hm h0 h1 h2 h3
    obtain ⟨⟨b, r⟩, hw⟩ := Option.isSome_iff_exists.mp hm
    simp only [dateRuleResolve, hw, Option.map_some']
    exact parseDate_monthDay_eval input now b r h0 h1 (isSome_false h2) (isSome_false h3) hw
  · have h0 := hearlier 0 (by omega)
    have h1 := hearlier 1 (by omega)
    have h2 := hearlier 2 (by omega)
    have h3 := hearlier 3 (by omega)
    have h4 := hearlier 4 (by omega)
    simp only [dateRuleMatches] at hm h0 h1 h2 h3 h4
    obtain ⟨⟨b, r⟩, hw⟩ := Option.isSome_iff_exists.mp hm
    simp only [dateRuleResolve, hw, Option.map_some']
    exact parseDate_relative_eval input now b r h0 h1 (isSome_false h2) (isSome_false h3)
      (isSome_false h4) hw
  · have h0 := hearlier 0 (by omega)
    have h1 := hearlier 1 (by omega)
    have h2 := hearlier 2 (by omega)
    have h3 := hearlier 3 (by omega)
    have h4 := hearlier 4 (by omega)
    have h5 := hearlier 5 (by omega)
    simp only [dateRuleMatches] at hm h0 h1 h2 h3 h4 h5
    obtain ⟨⟨b, r⟩, hw⟩ := Option.isSome_iff_exists.mp hm
    simp only [dateRuleResolve, hw, Option.map_some']
    exact parseDate_numeric_eval input now b r h0 h1 (isSome_false h2) (isSome_false h3)
      (isSome_false h4) (isSome_false h5) hw

/-- Witness for C3: an input containing both "today" and a weekday name
resolves by the today rule — day 4 (a Monday) stays day 4. -/
theorem parseDate_firstMatchWins_witness :
    parseDate "today monday" ⟨4, 0⟩ = some ⟨4, 0⟩ := by
  have h := parseDate_firstMatchWins "today monday" ⟨4, 0⟩ 0 (by omega) (by decide)
    (fun j hj => absurd hj (by omega))
  simpa [dateRuleResolve] using h

/-- How each of the 14 weekday tokens, bare and after "next ", interacts
with the regexes of the `parseDate` chain (checked by evaluation). -/
theorem weekday_regex_facts :
    ∀ w ∈ weekdayAll,
      reTest reToday (strLower w) = false ∧
      reTest reTomorrow (strLower w) = false ∧
      reCap reNextDay 1 (strLower w) = none ∧
      reCap reBareDay 1 (strLower w) = some w.data ∧
      reTest reToday (strLower ("next " ++ w)) = false ∧
      reTest reTomorrow (strLower ("next " ++ w)) = false ∧
      reCap reNextDay 1 (strLower ("next " ++ w)) = some w.data := by decide

/-- C4: for every weekday name or 3-letter abbreviation whose weekday
number equals the current weekday, parsing the bare weekday resolves the
date to the current day (0-day offset) at local midnight, while parsing
"next " followed by that weekday resolves to the current day + 7 (never
the current day), also at local midnight. -/
theorem bareWeekday_today_nextWeekday_plus7 (w : String) (hw : w ∈ weekdayAll)
    (now : DateTime)
    (h : jsDay now.days = (daysOfWeekTable.lookup w).getD 0) :
    (parseTaskInput w now).date = some ⟨now.days, 0⟩ ∧
    (parseTaskInput ("next " ++ w) now).date = some ⟨now.days + 7, 0⟩ := by
  obtain ⟨f1, f2, f3, f4, f5, f6, f7⟩ := weekday_regex_facts w hw
  constructor
  · rw [parseTaskInput_date]
    rw [parseDate_bareDay_eval w now w.data f1 f2 f3 f4]
    exact congrArg some (resolveBareDay_self w.data now h)
  · rw [parseTaskInput_date]
    rw [parseDate_nextDay_eval ("next " ++ w) now w.data f5 f6 f7]
    exact congrArg some (resolveNextDay_self w.data now h)

/-- Witness for C4 at "monday" on day 4 (a Monday). -/
theorem bareWeekday_today_nextWeekday_plus7_witness :
    (parseTaskInput "monday" ⟨4, 0⟩).date = some ⟨4, 0⟩ ∧
    (parseTaskInput ("next " ++ "monday") ⟨4, 0⟩).date = some ⟨11, 0⟩ :=
  bareWeekday_today_nextWeekday_plus7 "monday" (by decide) ⟨4, 0⟩ (by decide)

/-- C1: the time extractor does not recognize a standalone hour with an
am/pm marker and no colon; on the input of the claim it returns no time,
although the test suite of the repository expects a time. -/
theorem hourMeridiem_without_colon_time_absent :
    parseTime "Review report tomorrow at 2pm #work" = none ∧
    ∀ now : DateTime, (parseTaskInput "Review report tomorrow at 2pm #work" now).time = none := by
  refine ⟨by decide, fun now => ?_⟩
  rw [parseTaskInput_time]
  decide

/-- C2: on "today at 9:30am #urgent" the date, time and tag set are as
claimed, but the title is "at" rather than the placeholder "New Task":
the H:MM time pattern removes "9:30am" before the at-prefixed time
pattern could remove "at 9:30am", and the leftover word "at" survives. -/
theorem parse_today930_urgent_eval (now : DateTime) :
    (parseTaskInput "today at 9:30am #urgent" now).title = "at" ∧
    (parseTaskInput "today at 9:30am #urgent" now).date = some ⟨now.days, 0⟩ ∧
    (parseTaskInput "today at 9:30am #urgent" now).time = some "09:30" ∧
    (parseTaskInput "today at 9:30am #urgent" now).tags = ["urgent"] := by
  refine ⟨?_, ?_, ?_, ?_⟩
  · rw [parseTaskInput_title]
    decide
  · rw [parseTaskInput_date]
    exact parseDate_today_eval _ now (by decide)
  · rw [parseTaskInput_time]
    decide
  · rw [parseTaskInput_tags]
    decide

/-- C5 counterexample: the title cleaner does not strip every occurrence
of every date pattern — on "monday tuesday" the weekday pattern is applied
once, removes only "monday", and the title keeps "tuesday". -/
theorem cleanInput_keeps_second_weekday :
    cleanInput "monday tuesday" [] = "tuesday" := by decide

/-- C5 amended: the cleaner applies the hashtag and tag-list patterns
globally but each date and time pattern only once, stripping only the
first occurrence of each pattern; an input of two different weekday names
keeps the second one in the title.  The conjuncts cover every pattern:
the weekday-pair family is the full-weekday pattern; "#alpha #beta" and
"tag: a. tag: b" show the hashtag and tag-list patterns stripping all
their occurrences; the remaining conjuncts show each of the other eight
date patterns and the three time patterns stripping exactly one
occurrence and leaving a later one.  In "tonight tonight tonight" the
date-tonight pattern takes the first occurrence and the time period-word
pattern the second, so the third survives; in "next monday next monday"
the next-weekday pattern takes the first phrase and the full-weekday
pattern the trailing "monday" of the second, so "next" survives. -/
theorem cleanInput_strips_first_occurrence_per_pattern :
    (∀ w1 ∈ weekdayFull, ∀ w2 ∈ weekdayFull, w1 ≠ w2 →
        cleanInput (w1 ++ " " ++ w2) [] = w2) ∧
    cleanInput "#alpha #beta" [] = "New Task" ∧
    cleanInput "tag: a. tag: b" [] = "." ∧
    cleanInput "today today" [] = "today" ∧
    cleanInput "tomorrow tomorrow" [] = "tomorrow" ∧
    cleanInput "tonight tonight tonight" [] = "tonight" ∧
    cleanInput "next monday next monday" [] = "next" ∧
    cleanInput "mon mon" [] = "mon" ∧
    cleanInput "1/2/03 4/5/06" [] = "4/5/06" ∧
    cleanInput "jan 1 feb 2" [] = "feb 2" ∧
    cleanInput "in 2 days in 3 weeks" [] = "in 3 weeks" ∧
    cleanInput "9:30 10:45" [] = "10:45" ∧
    cleanInput "morning evening" [] = "evening" ∧
    cleanInput "at 2pm at 3pm" [] = "at 3pm" := by
  refine ⟨by decide, by decide, by decide, by decide, by decide, by decide, by decide,
    by decide, by decide, by decide, by decide, by decide, by decide, by decide⟩

/-- Witness for the amended C5 at a concrete pair of weekdays. -/
theorem cleanInput_strips_first_occurrence_per_pattern_witness :
    cleanInput ("wednesday" ++ " " ++ "friday") [] = "friday" :=
  cleanInput_strips_first_occurrence_per_pattern.1 "wednesday" (by decide)
    "friday" (by decide) (by decide)

/-- C8 counterexample: with no H:MM time present, the period words are not
resolved in text order — "night then morning" yields "09:00" (morning),
not "21:00" (night), although "night" occurs first. -/
theorem parseTime_period_not_text_order :
    parseTime "night then morning" = some "09:00" := by decide

/-- C8 amended: for every input with no H:MM clock time present — in
particular every input containing more than one period word — the time
extractor resolves the period words in the fixed priority order
morning, afternoon, evening, night, tonight, by position-blind
containment tests: `parseTime` agrees with `periodWordResolve`, the
fixed-priority choice function written from the amended claim. -/
theorem parseTime_period_fixed_priority (input : String)
    (hstd : reFirst reStdTime (strLower input) = none) :
    parseTime input = periodWordResolve input := by
  simp only [parseTime, periodWordResolve, hstd]

/-- Witness for the amended C8: "evening and night" resolves to evening
(18:00), the higher-priority of the two period words present. -/
theorem parseTime_period_fixed_priority_witness :
    parseTime "evening and night" = some "18:00" := by
  rw [parseTime_period_fixed_priority "evening and night" (by decide)]
  decide

/-- C9: the tag-list pattern stops at a semicolon (its character class
admits commas but not semicolons), so of "tag: urgent; critical" only
"urgent" is captured — although the same function splits the captured
list on both commas and semicolons, showing the intent to support both. -/
theorem tagList_semicolon_item_dropped :
    extractTags "tag: urgent; critical" = ["urgent"] := by decide

/-- C10: on the empty input all three partial-token patterns match (all
their characters are optional), and the non-empty-input fallback branch
does not run, so exactly the three suggestions Today, Tomorrow (+1 day)
and Next Week (+7 days) are returned. -/
theorem getDateSuggestions_empty_input (now : DateTime) :
    getDateSuggestions "" now =
      [⟨"Today", ⟨now.days, 0⟩, "📅"⟩, ⟨"Tomorrow", ⟨now.days + 1, 0⟩, "📅"⟩,
       ⟨"Next Week", ⟨now.days + 7, 0⟩, "📅"⟩] := by
  have h1 : anchoredTest suggTodayRe (trimL ("" : String).data) = true := by decide
  have h2 : anchoredTest suggTomorrowRe (trimL ("" : String).data) = true := by decide
  have h3 : anchoredTest suggNextWeekRe (trimL ("" : String).data) = true := by decide
  have h4 : ("" : String).length = 0 := by decide
  simp [getDateSuggestions, h1, h2, h3, h4]

end NLParse
